import Mathlib

/-!
Verification development for the firejail core (src/fs.c, src/firejail/join.c).

The definitions below are a shallow embedding of the blacklist engine
(`fs_blacklist`, `globbing`, `disable_file`), the mount primitives
(`fs_rdonly`, `fs_rdwr`, `fs_noexec`), the staging tmpfs flag machinery
(`fs_build_mnt_dir` / `fs_build_remount_mnt_dir`), the overlay composer's
kernel-version dispatch (`fs_overlayfs`), and the namespace-join protocol
(`join`).  Filesystem interaction (glob(3), fnmatch(3), realpath(3),
stat(2)) is abstracted into an environment `Env` of pure functions; the
mount/log side effects are recorded as an ordered `Event` trace.  mount(2)
calls whose failure the source turns into `errExit` (a crash, not a
control-flow branch) are modelled as always succeeding; the EACCES forced
mounts, whose failure the source tolerates, carry explicit success flags
in the environment.
-/

/-- Donor used as the read-only bind-mount source of a denial:
`RUN_RO_DIR` (empty 0500 directory) or `RUN_RO_FILE` (empty 0400 file). -/
inductive Donor
  | dir
  | file
  deriving DecidableEq, Repr

/-- Result of one fnmatch(3) call: match, no match, or an error
(anything other than 0 and FNM_NOMATCH). -/
inductive FnRes
  | matched
  | noMatch
  | err
  deriving DecidableEq, Repr

/-- Result of realpath(3): a canonical path, failure with errno EACCES,
or failure with any other errno. -/
inductive RpResult
  | ok (canon : String)
  | eaccess
  | otherErr
  deriving DecidableEq, Repr

/-- Point-in-time stat(2) snapshot of a path: S_ISDIR bit, owner, mode. -/
structure StatInfo where
  isDir : Bool
  uid : Nat
  gid : Nat
  mode : Nat
  deriving DecidableEq, Repr

/-- One observable side effect of the blacklist engine, in program order.
`attempt p` marks the dispatch of candidate `p` to `disable_file`
(fs.c:363-364); the remaining constructors are the individual mount(2),
chown(2), chmod(2), fs_logger and stderr effects of the engine. -/
inductive Event
  | attempt (path : String)
  | mountDenial (d : Donor) (path : String)
  | logBlacklist (path : String)
  | logBlacklistNolog (path : String)
  | warnBinLink (path : String)
  | rdonlyBind (path : String)
  | rdonlyRemount (path : String)
  | logRdonly (path : String)
  | rdwrBind (path : String)
  | rdwrRemount (path : String)
  | logRdwr (path : String)
  | warnRdwrDenied (path : String)
  | noexecBind (path : String)
  | noexecRemount (path : String)
  | logNoexec (path : String)
  | tmpfsMount (path : String)
  | chownEv (path : String) (uid gid : Nat)
  | chmodEv (path : String) (mode : Nat)
  | logTmpfs (path : String)
  | warnTmpfsNotDir (path : String)
  | bindMount (src dst : String)
  | errBindMissingDest (rest : String)
  | errBindNotFound (path : String)
  | warnInvalidLine (line : String)
  | mountStagingTmpfs
  | chrootEv (path : String)
  deriving DecidableEq, Repr

/-- The OPERATION enum of fs.c:184-192. -/
inductive OPERATION
  | BLACKLIST_FILE
  | BLACKLIST_NOLOG
  | MOUNT_READONLY
  | MOUNT_TMPFS
  | MOUNT_NOEXEC
  | MOUNT_RDWR
  deriving DecidableEq, Repr

/-- Abstraction of the filesystem/libc services the engine consults.
`glob` returns the GLOB_NOCHECK|GLOB_NOSORT|GLOB_PERIOD expansions of a
pattern (with GLOB_NOCHECK a pattern always expands, so glob(3) errors are
resource exhaustion and outside the model); `forceDirMountOk` /
`forceFileMountOk` report whether the forced donor bind mounts of the
EACCES fallback (fs.c:219, fs.c:223) succeed; `uid` is getuid(). -/
structure Env where
  glob : String → List String
  fnmatch : String → String → FnRes
  realpath : String → RpResult
  stat : String → Option StatInfo
  isLink : String → Bool
  forceDirMountOk : String → Bool
  forceFileMountOk : String → Bool
  uid : Nat

/-- Donor selected by disable_file for an existing target, as a function
of the S_ISDIR bit of its stat snapshot alone (fs.c:272-279). -/
def donorOfDir (isDir : Bool) : Donor :=
  if isDir then Donor.dir else Donor.file

/-- The log event emitted after a successful denial mount
(fs.c:281-284): "blacklist" for BLACKLIST_FILE, "blacklist-nolog"
otherwise. -/
def denialLog (op : OPERATION) (path : String) : Event :=
  if op = OPERATION.BLACKLIST_FILE then Event.logBlacklist path
  else Event.logBlacklistNolog path

/-- fs_rdonly (fs.c:553-567): silent no-op when stat fails, otherwise
self-bind followed by a read-only remount and a log entry. -/
def fs_rdonly (env : Env) (dir : String) : List Event :=
  match env.stat dir with
  | none => []
  | some _ => [Event.rdonlyBind dir, Event.rdonlyRemount dir, Event.logRdonly dir]

/-- fs_rdwr (fs.c:569-590): silent no-op when stat fails; refused with a
warning (and nothing mounted) when the caller is neither root nor the
owner; otherwise self-bind, read-write remount, log entry. -/
def fs_rdwr (env : Env) (dir : String) : List Event :=
  match env.stat dir with
  | none => []
  | some s =>
    if env.uid ≠ 0 ∧ s.uid ≠ env.uid then [Event.warnRdwrDenied dir]
    else [Event.rdwrBind dir, Event.rdwrRemount dir, Event.logRdwr dir]

/-- fs_noexec (fs.c:592-606): silent no-op when stat fails, otherwise
self-bind followed by a noexec/nodev/nosuid remount and a log entry. -/
def fs_noexec (env : Env) (dir : String) : List Event :=
  match env.stat dir with
  | none => []
  | some _ => [Event.noexecBind dir, Event.noexecRemount dir, Event.logNoexec dir]

/-- disable_file (fs.c:200-325).  Resolves the target with realpath;
EACCES triggers the forced-denial fallback against the directory donor
then the file donor; any other realpath failure, or a stat failure on the
canonical path, is a silent no-op; otherwise dispatches on the operation:
denial mount of the type-appropriate donor (with the /bin and /usr/bin
symlinked-directory exemption), fs_rdonly, fs_rdwr, fs_noexec, or the
tmpfs replacement that restores the snapshot owner. -/
def disable_file (env : Env) (op : OPERATION) (filename : String) : List Event :=
  match env.realpath filename with
  | RpResult.otherErr => []
  | RpResult.eaccess =>
    if env.forceDirMountOk filename then
      [Event.mountDenial Donor.dir filename, denialLog op filename]
    else if env.forceFileMountOk filename then
      [Event.mountDenial Donor.file filename, denialLog op filename]
    else []
  | RpResult.ok fname =>
    match env.stat fname with
    | none => []
    | some s =>
      match op with
      | OPERATION.BLACKLIST_FILE =>
        if (fname = "/bin" ∨ fname = "/usr/bin") ∧ env.isLink filename ∧ s.isDir then
          [Event.warnBinLink filename]
        else
          [Event.mountDenial (donorOfDir s.isDir) fname, denialLog OPERATION.BLACKLIST_FILE fname]
      | OPERATION.BLACKLIST_NOLOG =>
        if (fname = "/bin" ∨ fname = "/usr/bin") ∧ env.isLink filename ∧ s.isDir then
          [Event.warnBinLink filename]
        else
          [Event.mountDenial (donorOfDir s.isDir) fname, denialLog OPERATION.BLACKLIST_NOLOG fname]
      | OPERATION.MOUNT_READONLY => fs_rdonly env fname
      | OPERATION.MOUNT_RDWR => fs_rdwr env fname
      | OPERATION.MOUNT_NOEXEC => fs_noexec env fname
      | OPERATION.MOUNT_TMPFS =>
        if s.isDir then
          [Event.tmpfsMount fname, Event.chownEv fname s.uid s.gid, Event.logTmpfs fname]
        else [Event.warnTmpfsNotDir fname]

/-- Characters after the last slash; the whole list when it has none. -/
def gnuBasenameL : List Char → List Char
  | [] => []
  | c :: rest =>
    if rest.contains '/' then gnuBasenameL rest
    else if c = '/' then rest
    else c :: rest

/-- gnu_basename: the portion of a path after the last slash, or the
whole path when it has none. -/
def gnuBasename (s : String) : String :=
  String.mk (gnuBasenameL s.toList)

/-- The noblacklist scan of globbing (fs.c:349-362): the candidate is okay
to blacklist unless some accumulated exception pattern fnmatch-matches it;
an fnmatch error is fatal. -/
def okayToBlacklist (env : Env) (nb : List String) (path : String) : Except String Bool :=
  match nb with
  | [] => Except.ok true
  | p :: rest =>
    match env.fnmatch p path with
    | FnRes.noMatch => okayToBlacklist env rest path
    | FnRes.matched => Except.ok false
    | FnRes.err => Except.error "failed to compare path with pattern"

/-- The candidate loop of globbing (fs.c:341-367): drop expansions whose
basename is "." or "..", drop exception-listed expansions, dispatch the
survivors to disable_file in expansion order. -/
def globLoop (env : Env) (op : OPERATION) (nb : List String) :
    List String → Except String (List Event)
  | [] => Except.ok []
  | path :: rest =>
    if gnuBasename path = "." ∨ gnuBasename path = ".." then
      globLoop env op nb rest
    else
      match okayToBlacklist env nb path with
      | Except.error e => Except.error e
      | Except.ok true =>
        match globLoop env op nb rest with
        | Except.error e => Except.error e
        | Except.ok evs =>
          Except.ok (Event.attempt path :: disable_file env op path ++ evs)
      | Except.ok false => globLoop env op nb rest

/-- globbing (fs.c:328-369): expand the pattern and run the candidate
loop against the current exception list. -/
def globbing (env : Env) (op : OPERATION) (pattern : String) (nb : List String) :
    Except String (List Event) :=
  globLoop env op nb (env.glob pattern)

/-- Boolean strncmp-style prefix test used by fs_blacklist dispatch. -/
def pfx (p : String) (d : List Char) : Bool :=
  p.toList.isPrefixOf d

/-- Parsed shape of one profile line, mirroring the prefix dispatch of
fs_blacklist (fs.c:387-513). -/
inductive LineForm
  | skip
  | bindL (rest : List Char)
  | noblacklistL (rest : List Char)
  | oper (op : OPERATION) (rest : List Char)
  | invalid
  deriving DecidableEq, Repr

/-- The strncmp prefix dispatch of fs_blacklist, in source order.  Note
the source compares only 11 characters for "args-noexec " (fs.c:401), so
"args-noexec" with no trailing space already matches. -/
def parseLine (d : List Char) : LineForm :=
  if pfx "whitelist " d || d.isEmpty then LineForm.skip
  else if pfx "args-path " d || pfx "args-whitelist " d || pfx "args-read-only " d
       || pfx "args-noexec" d then LineForm.skip
  else if pfx "bind " d then LineForm.bindL (d.drop 5)
  else if pfx "noblacklist " d then LineForm.noblacklistL (d.drop 12)
  else if pfx "blacklist " d then LineForm.oper OPERATION.BLACKLIST_FILE (d.drop 10)
  else if pfx "blacklist-nolog " d then LineForm.oper OPERATION.BLACKLIST_NOLOG (d.drop 16)
  else if pfx "read-only " d then LineForm.oper OPERATION.MOUNT_READONLY (d.drop 10)
  else if pfx "read-write " d then LineForm.oper OPERATION.MOUNT_RDWR (d.drop 11)
  else if pfx "noexec " d then LineForm.oper OPERATION.MOUNT_NOEXEC (d.drop 7)
  else if pfx "tmpfs " d then LineForm.oper OPERATION.MOUNT_TMPFS (d.drop 6)
  else LineForm.invalid

/-- Modelled from the spec: expand_home (util.c, not under src/) replaces
a leading "${HOME}" macro with the home directory and passes any other
string through unchanged. -/
def expand_home (s : List Char) (homedir : List Char) : List Char :=
  if pfx "${HOME}" s then homedir ++ s.drop 7 else s

/-- Suffix after a leading "${PATH}" macro, when present
(fs.c:451, fs.c:521). -/
def pathMacroSuffix (s : List Char) : Option (List Char) :=
  if pfx "${PATH}" s then some (s.drop 7) else none

/-- Modelled from the spec: build_paths (util.c, not under src/) returns
the canonical executable search directories, one ${PATH} expansion per
entry. -/
def build_paths : List (List Char) :=
  ["/usr/local/bin".toList, "/usr/local/sbin".toList, "/bin".toList,
   "/usr/bin".toList, "/sbin".toList, "/usr/sbin".toList]

/-- Modelled from the spec: split_comma (util.c, not under src/) splits
"src,dst" at the first comma; a missing comma means the second bind
endpoint is missing. -/
def split_comma (s : List Char) : Option (List Char × List Char) :=
  if s.contains ',' then
    some (s.takeWhile (fun c => c ≠ ','), (s.dropWhile (fun c => c ≠ ',')).drop 1)
  else none

/-- The ${PATH} fan-out of a blacklist-family directive (fs.c:524-532):
glob each search directory prefixed onto the remainder of the target. -/
def globPathsLoop (env : Env) (op : OPERATION) (fname : List Char) (nb : List String) :
    List (List Char) → Except String (List Event)
  | [] => Except.ok []
  | p :: rest =>
    match globbing env op (String.mk (p ++ fname)) nb with
    | Except.error e => Except.error e
    | Except.ok e1 =>
      match globPathsLoop env op fname nb rest with
      | Except.error e => Except.error e
      | Except.ok e2 => Except.ok (e1 ++ e2)

/-- One iteration of the fs_blacklist directive loop (fs.c:387-541):
returns the events of the directive and the updated exception list, or a
fatal configuration error. -/
def procLine (env : Env) (homedir : List Char) (nb : List String) (d : List Char) :
    Except String (List Event × List String) :=
  match parseLine d with
  | LineForm.skip => Except.ok ([], nb)
  | LineForm.bindL rest =>
    match split_comma rest with
    | none => Except.ok ([Event.errBindMissingDest (String.mk rest)], nb)
    | some (d1, d2) =>
      match env.stat (String.mk d1) with
      | none => Except.ok ([Event.errBindNotFound (String.mk d1)], nb)
      | some _ =>
        match env.stat (String.mk d2) with
        | none => Except.ok ([Event.errBindNotFound (String.mk d2)], nb)
        | some s2 =>
          Except.ok ([Event.bindMount (String.mk d1) (String.mk d2),
                      Event.chownEv (String.mk d2) s2.uid s2.gid,
                      Event.chmodEv (String.mk d2) s2.mode], nb)
  | LineForm.noblacklistL rest =>
    match pathMacroSuffix rest with
    | some suf =>
      Except.ok ([], nb ++ (build_paths.map (fun p => String.mk (p ++ suf))))
    | none =>
      Except.ok ([], nb ++ [String.mk (expand_home rest homedir)])
  | LineForm.oper op rest =>
    match pathMacroSuffix (expand_home rest homedir) with
    | some fname =>
      match globPathsLoop env op fname nb build_paths with
      | Except.error e => Except.error e
      | Except.ok evs => Except.ok (evs, nb)
    | none =>
      match globbing env op (String.mk (expand_home rest homedir)) nb with
      | Except.error e => Except.error e
      | Except.ok evs => Except.ok (evs, nb)
  | LineForm.invalid =>
    Except.ok ([Event.warnInvalidLine (String.mk d)], nb)

/-- The fs_blacklist directive loop (fs.c:387-541), threading the
exception list through the ordered directive sequence and concatenating
the event traces. -/
def floop (env : Env) (homedir : List Char) :
    List (List Char) → List String → Except String (List Event × List String)
  | [], nb => Except.ok ([], nb)
  | d :: rest, nb =>
    match procLine env homedir nb d with
    | Except.error e => Except.error e
    | Except.ok (e1, nb1) =>
      match floop env homedir rest nb1 with
      | Except.error e => Except.error e
      | Except.ok (e2, nb2) => Except.ok (e1 ++ e2, nb2)

/-- fs_blacklist (fs.c:373-546): run the directive loop with an initially
empty exception list. -/
def fs_blacklist (env : Env) (homedir : List Char) (entries : List (List Char)) :
    Except String (List Event × List String) :=
  floop env homedir entries []

/-- The staging working-mount area RUN_MNT_DIR. -/
def RUN_MNT_DIR : String := "/run/firejail/mnt"

/-- fs_build_mnt_dir (fs.c:126-145): the process-wide `tmpfs_mounted`
flag, threaded explicitly; a fresh tmpfs is mounted on RUN_MNT_DIR only
when the flag is clear, and the flag is then set. -/
def fs_build_mnt_dir (tmpfs_mounted : Bool) : Bool × List Event :=
  if tmpfs_mounted then (true, [])
  else (true, [Event.mountStagingTmpfs])

/-- fs_build_remount_mnt_dir (fs.c:120-123): clears `tmpfs_mounted` and
rebuilds, so a fresh tmpfs is always mounted. -/
def fs_build_remount_mnt_dir (_tmpfs_mounted : Bool) : Bool × List Event :=
  fs_build_mnt_dir false

/-- The `tmpfs_mounted`-relevant effects of fs_chroot (fs.c:1235-1241):
chroot into rootdir, then fs_build_remount_mnt_dir. -/
def fs_chroot_tmpfs (rootdir : String) (tmpfs_mounted : Bool) : Bool × List Event :=
  let r := fs_build_remount_mnt_dir tmpfs_mounted
  (r.1, Event.chrootEv rootdir :: r.2)

/-- The `tmpfs_mounted`-relevant effects of fs_overlayfs (fs.c:857-1095):
fs_build_mnt_dir before building the overlay directories (fs.c:881), then
chroot into the overlay root (fs.c:1069) with no further flag access. -/
def fs_overlayfs_tmpfs (tmpfs_mounted : Bool) : Bool × List Event :=
  let r := fs_build_mnt_dir tmpfs_mounted
  (r.1, r.2 ++ [Event.chrootEv (RUN_MNT_DIR ++ "/oroot")])

/-- Overlay driver variant selected from the kernel version
(fs.c:872-878, fs.c:947-961). -/
inductive OverlayDriver
  | overlayfsLegacy
  | overlayModern
  deriving DecidableEq, Repr

/-- Mount options of the overlay mount: lowerdir, upperdir, and (modern
driver only) workdir. -/
structure OverlayOpts where
  lowerdir : String
  upperdir : String
  workdir : Option String
  deriving DecidableEq, Repr

/-- Outcome of the version-dependent part of fs_overlayfs. -/
inductive OverlayOutcome
  | fatalBadVersion
  | fatalKernelTooOld
  | fatalKeepOldKernel
  | mounted (driver : OverlayDriver) (opts : OverlayOpts)
  deriving DecidableEq, Repr

/-- Digit run at the front of a character list. -/
def digitsToNat (l : List Char) : Nat :=
  l.foldl (fun a c => a * 10 + (c.toNat - 48)) 0

/-- The sscanf(u.release, "%d.%d", ...) probe of fs_overlayfs
(fs.c:865): the major.minor prefix of the kernel release string, or
failure when the two integers cannot both be read. -/
def parseRelease (s : String) : Option (Nat × Nat) :=
  let maj := s.toList.takeWhile Char.isDigit
  let r1 := s.toList.dropWhile Char.isDigit
  if maj.isEmpty then none
  else
    match r1 with
    | '.' :: r2 =>
      let mino := r2.takeWhile Char.isDigit
      if mino.isEmpty then none else some (digitsToNat maj, digitsToNat mino)
    | _ => none

/-- The kernel-version dispatch of fs_overlayfs (fs.c:857-961): an
unparsable release is fatal; a major version below 3 is fatal; kernels
3.minor with minor < 18 use the legacy "overlayfs" driver
(lowerdir+upperdir only) and reject --overlay keep/reuse requests with a
fatal error before any mount; otherwise the modern "overlay" driver is
mounted with a workdir. -/
def fs_overlayfs_driver (release : String) (keep : Bool) (odiff owork : String) :
    OverlayOutcome :=
  match parseRelease release with
  | none => OverlayOutcome.fatalBadVersion
  | some (major, minor) =>
    if major < 3 then OverlayOutcome.fatalKernelTooOld
    else if major = 3 ∧ minor < 18 then
      if keep then OverlayOutcome.fatalKeepOldKernel
      else OverlayOutcome.mounted OverlayDriver.overlayfsLegacy
        { lowerdir := "/", upperdir := odiff, workdir := none }
    else OverlayOutcome.mounted OverlayDriver.overlayModern
      { lowerdir := "/", upperdir := odiff, workdir := some owork }

/-- Restriction the join child applies before executing the command
(join.c:288-327). -/
inductive Restriction
  | cpuAffinity
  | capsSet (caps : Nat)
  | protocolDefault
  | protocolFilter
  | seccompSet
  | joinUserNs
  | dropPrivs (nogroups : Bool)
  deriving DecidableEq, Repr

/-- The globals and cfg fields of join.c that the extraction phase can
set: apply_caps/caps/apply_seccomp (join.c:30-32), cfg.cpus, cfg.cgroup,
cfg.protocol, arg_nogroups, arg_noroot. -/
structure JoinGlobals where
  apply_caps : Bool
  caps : Nat
  apply_seccomp : Bool
  cfg_cpus : Bool
  cfg_cgroup : Bool
  cfg_protocol : Bool
  arg_nogroups : Bool
  arg_noroot : Bool
  deriving DecidableEq, Repr

/-- Zero-initialised globals: nothing extracted, nothing configured. -/
def JoinGlobals.init : JoinGlobals :=
  { apply_caps := false, caps := 0, apply_seccomp := false, cfg_cpus := false,
    cfg_cgroup := false, cfg_protocol := false, arg_nogroups := false,
    arg_noroot := false }

/-- What the target process exposes to the extraction phase: the CapBnd
and Seccomp lines of /proc/pid/status, the staged config files under
/proc/pid/root, the first two fields of its uid_map, and its owner uid. -/
structure TargetCtx where
  capBnd : Option Nat
  seccompMode : Option Nat
  hasCpuCfg : Bool
  hasCgroupCfg : Bool
  hasGroupsCfg : Bool
  uidMap : Option (Nat × Nat)
  sandboxUid : Nat
  deriving DecidableEq, Repr

/-- extract_caps_seccomp (join.c:108-142): a CapBnd line arms the
capability filter with its value; a Seccomp line with value 2 arms the
seccomp filter.  (In /proc/pid/status CapBnd precedes Seccomp, so the
break at the Seccomp line never hides the CapBnd line.) -/
def extract_caps_seccomp (t : TargetCtx) (g : JoinGlobals) : JoinGlobals :=
  let g1 :=
    match t.capBnd with
    | some v => { g with apply_caps := true, caps := v }
    | none => g
  match t.seccompMode with
  | some v => if v = 2 then { g1 with apply_seccomp := true } else g1
  | none => g1

/-- extract_cpu (join.c:80-92): arm the cpu-affinity restriction when the
staged RUN_CPU_CFG file exists in the target's root. -/
def extract_cpu (t : TargetCtx) (g : JoinGlobals) : JoinGlobals :=
  if t.hasCpuCfg then { g with cfg_cpus := true } else g

/-- extract_cgroup (join.c:94-106): arm the cgroup restriction when the
staged RUN_CGROUP_CFG file exists in the target's root. -/
def extract_cgroup (t : TargetCtx) (g : JoinGlobals) : JoinGlobals :=
  if t.hasCgroupCfg then { g with cfg_cgroup := true } else g

/-- extract_nogroups (join.c:67-78): arm the supplementary-groups drop
when the RUN_GROUPS_CFG marker exists in the target's root. -/
def extract_nogroups (t : TargetCtx) (g : JoinGlobals) : JoinGlobals :=
  if t.hasGroupsCfg then { g with arg_nogroups := true } else g

/-- extract_user_namespace (join.c:144-176): a readable uid_map whose
first two fields are not both zero means the target already runs in its
own user namespace, arming arg_noroot. -/
def extract_user_namespace (t : TargetCtx) (g : JoinGlobals) : JoinGlobals :=
  match t.uidMap with
  | some p => if p.1 ≠ 0 ∨ p.2 ≠ 0 then { g with arg_noroot := true } else g
  | none => g

/-- The restriction sequence the forked join child applies before
start_application (join.c:288-327), in program order: cpu affinity, the
capability filter, the default protocol filter for non-root joiners, the
configured protocol filter, the extracted seccomp enforcement, and
finally either the user-namespace entry (re-applying the capability
filter) or the unprivileged-credentials drop. -/
def childActs (uid : Nat) (g : JoinGlobals) : List Restriction :=
  (if g.cfg_cpus then [Restriction.cpuAffinity] else []) ++
  (if g.apply_caps then [Restriction.capsSet g.caps] else []) ++
  (if uid ≠ 0 then [Restriction.protocolDefault] else []) ++
  (if g.cfg_protocol then [Restriction.protocolFilter] else []) ++
  (if g.apply_seccomp then [Restriction.seccompSet] else []) ++
  (if g.arg_noroot then
    Restriction.joinUserNs :: (if g.apply_caps then [Restriction.capsSet g.caps] else [])
  else [Restriction.dropPrivs g.arg_nogroups])

/-- The observable result of a join that passes the permission check:
the globals after the extraction phase, whether the parent calls
set_cgroup, the child's restriction sequence, and the parent's exit
status. -/
structure JoinRun where
  globals : JoinGlobals
  setCgroup : Bool
  childRestrictions : List Restriction
  parentExit : Nat
  deriving DecidableEq, Repr

/-- join (join.c:193-404).  A non-root caller joining a sandbox owned by
a different uid is refused with exit(1) (join.c:214-222), modelled as
`none`.  Otherwise the extraction phase runs only for non-root callers
(join.c:226-232), set_cgroup runs only when cfg.cgroup was set, the child
applies `childActs`, and the parent waits and exits 0. -/
def join (uid : Nat) (t : TargetCtx) (g0 : JoinGlobals) : Option JoinRun :=
  if uid ≠ 0 ∧ uid ≠ t.sandboxUid then none
  else
    let g :=
      if uid ≠ 0 then
        extract_user_namespace t (extract_nogroups t (extract_cgroup t
          (extract_cpu t (extract_caps_seccomp t g0))))
      else g0
    some { globals := g, setCgroup := g.cfg_cgroup,
           childRestrictions := childActs uid g, parentExit := 0 }

/-- A step the join parent takes after forking. -/
inductive ParentStep
  | waitChild
  | flushLog
  deriving DecidableEq, Repr

/-- Parent epilogue of join (join.c:396-403): waitpid(child, NULL, 0)
discards the child's exit status, ctflush() flushes buffered logging, and
exit(0) terminates the parent. -/
def join_parent_epilogue (_childExitStatus : Nat) : List ParentStep × Nat :=
  ([ParentStep.waitChild, ParentStep.flushLog], 0)

/-- The SIGTERM handler the parent installs (join.c:35-39): flush
buffered logging, then exit with the signal number. -/
def join_signal_handler (sig : Nat) : List ParentStep × Nat :=
  ([ParentStep.flushLog], sig)

/-- Abstract state of one directory mountpoint: owner and content. -/
structure DirNode where
  uid : Nat
  gid : Nat
  entries : List String
  deriving DecidableEq, Repr

/-- Semantics of the events that change a mountpoint: mounting a tmpfs
over a path replaces it with a fresh, empty, root-owned node; chown
updates the owner; other events leave directory state unchanged. -/
def applyEvent (fs : String → DirNode) : Event → (String → DirNode)
  | Event.tmpfsMount p => fun x => if x = p then { uid := 0, gid := 0, entries := [] } else fs x
  | Event.chownEv p u g => fun x => if x = p then { fs p with uid := u, gid := g } else fs x
  | _ => fs

/-- Fold the event trace over the directory state. -/
def applyEvents (fs : String → DirNode) (evs : List Event) : String → DirNode :=
  evs.foldl applyEvent fs

/-- disable_file never emits a dispatch marker: `attempt` events come
only from the candidate loop of globbing. -/
theorem attempt_not_in_disable_file (env : Env) (op : OPERATION) (c q : String) :
    Event.attempt q ∉ disable_file env op c := by
  unfold disable_file fs_rdonly fs_rdwr fs_noexec denialLog
  repeat' split
  all_goals simp

/-- When some accumulated exception pattern fnmatch-matches the
candidate, a non-fatal exception scan always answers "not okay to
blacklist". -/
theorem okayToBlacklist_false (env : Env) (q pat : String) :
    ∀ (nb : List String) (b : Bool), pat ∈ nb → env.fnmatch pat q = FnRes.matched →
      okayToBlacklist env nb q = Except.ok b → b = false := by
  intro nb
  induction nb with
  | nil => intro b hp _ _; simp at hp
  | cons a rest ih =>
    intro b hp hm hok
    simp only [okayToBlacklist] at hok
    cases hfa : env.fnmatch a q <;> rw [hfa] at hok
    case matched =>
      simp only [Except.ok.injEq] at hok
      exact hok.symm
    case noMatch =>
      rcases List.mem_cons.mp hp with rfl | hp2
      · rw [hm] at hfa; cases hfa
      · exact ih b hp2 hm hok
    case err => cases hok

/-- Core exclusion property of the candidate loop: once the exception
list holds a pattern that fnmatch-matches `q`, a non-fatal pass over any
candidate list never dispatches `q` to disable_file. -/
theorem globLoop_no_attempt (env : Env) (op : OPERATION) (nb : List String)
    (pat q : String) (hp : pat ∈ nb) (hm : env.fnmatch pat q = FnRes.matched) :
    ∀ (cands : List String) (evs : List Event),
      globLoop env op nb cands = Except.ok evs → Event.attempt q ∉ evs := by
  intro cands
  induction cands with
  | nil =>
    intro evs h
    simp only [globLoop, Except.ok.injEq] at h
    subst h
    simp
  | cons c rest ih =>
    intro evs h
    simp only [globLoop] at h
    by_cases hdot : gnuBasename c = "." ∨ gnuBasename c = ".."
    · rw [if_pos hdot] at h
      exact ih evs h
    · rw [if_neg hdot] at h
      cases hok : okayToBlacklist env nb c <;> rw [hok] at h
      case neg.error => cases h
      case neg.ok b =>
        cases b
        · exact ih evs h
        · cases hrec : globLoop env op nb rest <;> rw [hrec] at h
          case error => cases h
          case ok evs2 =>
            simp only [Except.ok.injEq] at h
            subst h
            intro hmem
            rcases List.mem_cons.mp hmem with heq | hmem2
            · have hqc : q = c := by injection heq
              subst hqc
              have hfalse := okayToBlacklist_false env q pat nb true hp hm hok
              cases hfalse
            · rcases List.mem_append.mp hmem2 with h1 | h2
              · exact attempt_not_in_disable_file env op c q h1
              · exact ih evs2 hrec h2

/-- One directive only ever appends to the exception list: the updated
list is the old one followed by some (possibly empty) extension. -/
theorem procLine_nb_ext (env : Env) (hd : List Char) (nb : List String) (d : List Char)
    (e : List Event) (nb2 : List String)
    (h : procLine env hd nb d = Except.ok (e, nb2)) :
    ∃ ext, nb2 = nb ++ ext := by
  unfold procLine at h
  split at h
  · exact ⟨[], by simp_all⟩
  · split at h
    · exact ⟨[], by simp_all⟩
    · split at h
      · exact ⟨[], by simp_all⟩
      · split at h
        · exact ⟨[], by simp_all⟩
        · exact ⟨[], by simp_all⟩
  · split at h
    · simp only [Except.ok.injEq, Prod.mk.injEq] at h
      exact ⟨_, h.2.symm⟩
    · simp only [Except.ok.injEq, Prod.mk.injEq] at h
      exact ⟨_, h.2.symm⟩
  · split at h
    · split at h
      · cases h
      · exact ⟨[], by simp_all⟩
    · split at h
      · cases h
      · exact ⟨[], by simp_all⟩
  · exact ⟨[], by simp_all⟩

/-- The directive loop only ever appends to the exception list. -/
theorem floop_nb_ext (env : Env) (hd : List Char) :
    ∀ (xs : List (List Char)) (nb : List String) (e : List Event) (nb2 : List String),
      floop env hd xs nb = Except.ok (e, nb2) → ∃ ext, nb2 = nb ++ ext := by
  intro xs
  induction xs with
  | nil =>
    intro nb e nb2 h
    simp only [floop, Except.ok.injEq, Prod.mk.injEq] at h
    exact ⟨[], by simp [h.2]⟩
  | cons d rest ih =>
    intro nb e nb2 h
    simp only [floop] at h
    cases hp : procLine env hd nb d <;> simp only [hp] at h
    case error => cases h
    case ok p =>
      obtain ⟨e1, nb1⟩ := p
      cases hf : floop env hd rest nb1 <;> simp only [hf] at h
      case error => cases h
      case ok p2 =>
        obtain ⟨e2, nb3⟩ := p2
        simp only [Except.ok.injEq, Prod.mk.injEq] at h
        obtain ⟨ext1, hx1⟩ := procLine_nb_ext env hd nb d e1 nb1 hp
        obtain ⟨ext2, hx2⟩ := ih nb1 e2 nb3 hf
        exact ⟨ext1 ++ ext2, by rw [← h.2, hx2, hx1, List.append_assoc]⟩

/-- Sequential decomposition of the directive loop over an append:
processing `xs ++ ys` is processing `xs`, then processing `ys` from the
resulting exception list, concatenating the event traces. -/
theorem floop_append (env : Env) (hd : List Char) (xs ys : List (List Char)) :
    ∀ (nb : List String),
      floop env hd (xs ++ ys) nb =
        match floop env hd xs nb with
        | Except.error e => Except.error e
        | Except.ok (e1, nb1) =>
          match floop env hd ys nb1 with
          | Except.error e => Except.error e
          | Except.ok (e2, nb2) => Except.ok (e1 ++ e2, nb2) := by
  induction xs with
  | nil =>
    intro nb
    simp only [List.nil_append, floop]
    cases hys : floop env hd ys nb
    case error => rfl
    case ok p => obtain ⟨e2, nb2⟩ := p; simp
  | cons d rest ih =>
    intro nb
    show floop env hd (d :: (rest ++ ys)) nb = _
    simp only [floop]
    cases hp : procLine env hd nb d
    case error => rfl
    case ok p =>
      obtain ⟨e1, nb1⟩ := p
      simp only []
      rw [ih nb1]
      cases hf : floop env hd rest nb1
      case error => rfl
      case ok p2 =>
        obtain ⟨e2, nb2⟩ := p2
        simp only []
        cases hys : floop env hd ys nb2
        case error => rfl
        case ok p3 => obtain ⟨e3, nb3⟩ := p3; simp

/-- Claim C1: in one fs_blacklist pass, a noblacklist pattern P appended
to the exception list before a blacklist directive G is processed
excludes every glob expansion of G that fnmatch-matches P from the denial
dispatch of that directive, while the same noblacklist P does not undo a
denial already applied by a directive processed earlier in the sequence:
the earlier events all survive in the final trace. -/
theorem c1_noblacklist_ordering
    (env : Env) (homedir : List Char) (nb0 : List String)
    (pre mid post : List (List Char)) (dP dG : List Char)
    (P G : List Char) (q : String)
    (epre emid : List Event) (npre nmid : List String)
    (hP : parseLine dP = LineForm.noblacklistL P)
    (hG : parseLine dG = LineForm.oper OPERATION.BLACKLIST_FILE G)
    (hPmac : pathMacroSuffix P = none)
    (hPhome : expand_home P homedir = P)
    (hGhome : expand_home G homedir = G)
    (hGmac : pathMacroSuffix G = none)
    (hq : q ∈ env.glob (String.mk G))
    (hmatch : env.fnmatch (String.mk P) q = FnRes.matched)
    (hpre : floop env homedir pre nb0 = Except.ok (epre, npre))
    (hmid : floop env homedir mid (npre ++ [String.mk P]) = Except.ok (emid, nmid)) :
    (procLine env homedir npre dP = Except.ok ([], npre ++ [String.mk P]))
    ∧ (∀ eG nG, procLine env homedir nmid dG = Except.ok (eG, nG) →
       Event.attempt q ∉ eG)
    ∧ (∀ evs nbF,
        floop env homedir (pre ++ [dP] ++ mid ++ [dG] ++ post) nb0 = Except.ok (evs, nbF) →
        ∀ ev, ev ∈ epre → ev ∈ evs) := by
  refine ⟨?_, ?_, ?_⟩
  · unfold procLine
    simp only [hP, hPmac, hPhome]
  · intro eG nG hproc
    obtain ⟨ext, hext⟩ :=
      floop_nb_ext env homedir mid (npre ++ [String.mk P]) emid nmid hmid
    have hPin : String.mk P ∈ nmid := by
      rw [hext]
      simp
    unfold procLine at hproc
    simp only [hG, hGhome, hGmac] at hproc
    cases hg : globbing env OPERATION.BLACKLIST_FILE (String.mk G) nmid <;>
      simp only [hg] at hproc
    case error => cases hproc
    case ok evsG =>
      simp only [Except.ok.injEq, Prod.mk.injEq] at hproc
      rw [← hproc.1]
      exact globLoop_no_attempt env OPERATION.BLACKLIST_FILE nmid (String.mk P) q
        hPin hmatch (env.glob (String.mk G)) evsG hg
  · intro evs nbF hfull
    rw [List.append_assoc, List.append_assoc, List.append_assoc,
      floop_append env homedir pre ([dP] ++ (mid ++ ([dG] ++ post))) nb0] at hfull
    simp only [hpre] at hfull
    cases hrest : floop env homedir ([dP] ++ (mid ++ ([dG] ++ post))) npre <;>
      simp only [hrest] at hfull
    case error => cases hfull
    case ok p =>
      obtain ⟨e2, nb2⟩ := p
      simp only [Except.ok.injEq, Prod.mk.injEq] at hfull
      intro ev hev
      rw [← hfull.1]
      exact List.mem_append_left _ hev

/-- Concrete environment for the spec's noblacklist scenario: globbing
"/home/u/.*" expands to the dot entries plus .ssh and .bashrc, fnmatch
matches only the literal pattern "/home/u/.ssh" against itself, every
path resolves to itself and stats as a regular file. -/
def envC1 : Env :=
  { glob := fun s =>
      if s = "/home/u/.*" then ["/home/u/.", "/home/u/..", "/home/u/.ssh", "/home/u/.bashrc"]
      else [s]
    fnmatch := fun p x =>
      if p = "/home/u/.ssh" ∧ x = "/home/u/.ssh" then FnRes.matched else FnRes.noMatch
    realpath := fun s => RpResult.ok s
    stat := fun _ => some { isDir := false, uid := 0, gid := 0, mode := 420 }
    isLink := fun _ => false
    forceDirMountOk := fun _ => false
    forceFileMountOk := fun _ => false
    uid := 0 }

/-- Witness for C1 at the spec's own scenario: after
"noblacklist /home/u/.ssh", the directive "blacklist /home/u/.*" denies
.bashrc but never dispatches .ssh. -/
theorem c1_noblacklist_ordering_witness :
    Event.attempt "/home/u/.ssh" ∉
      [Event.attempt "/home/u/.bashrc",
       Event.mountDenial Donor.file "/home/u/.bashrc",
       Event.logBlacklist "/home/u/.bashrc"] :=
  (c1_noblacklist_ordering envC1 "/home/u".toList [] [] [] []
    "noblacklist /home/u/.ssh".toList "blacklist /home/u/.*".toList
    "/home/u/.ssh".toList "/home/u/.*".toList "/home/u/.ssh"
    [] [] [] ["/home/u/.ssh"]
    rfl rfl rfl rfl rfl rfl (by decide) rfl rfl rfl).2.1
    [Event.attempt "/home/u/.bashrc",
     Event.mountDenial Donor.file "/home/u/.bashrc",
     Event.logBlacklist "/home/u/.bashrc"]
    ["/home/u/.ssh"] (by rfl)

/-- Claim C2 counterexample: the claim says an unrecognized directive
line is fatal and processing does not continue, but fs_blacklist
(fs.c:509-513) prints the error and moves to the next directive.  On the
sequence ["frobnicate /x", "blacklist /tmp/q"] the run completes without
a fatal error and the later blacklist directive is still applied. -/
theorem c2_counterexample :
    fs_blacklist envC1 "/home/u".toList
      ["frobnicate /x".toList, "blacklist /tmp/q".toList]
    = Except.ok ([Event.warnInvalidLine "frobnicate /x",
                  Event.attempt "/tmp/q",
                  Event.mountDenial Donor.file "/tmp/q",
                  Event.logBlacklist "/tmp/q"], []) := by rfl

/-- Claim C2 (amended): an unrecognized directive line produces a
descriptive error message and is skipped, with processing continuing at
the next directive; whitelist, empty and args-* lines are silently
ignored. -/
theorem c2_amended_invalid_line_continues (env : Env) (homedir : List Char)
    (nb : List String) (d dsk : List Char)
    (hinv : parseLine d = LineForm.invalid)
    (hskip : parseLine dsk = LineForm.skip) :
    procLine env homedir nb d = Except.ok ([Event.warnInvalidLine (String.mk d)], nb)
    ∧ procLine env homedir nb dsk = Except.ok ([], nb) := by
  constructor
  · unfold procLine
    simp only [hinv]
  · unfold procLine
    simp only [hskip]

/-- Witness for the amended C2 on the lines "frobnicate /x" (invalid)
and "whitelist /tmp" (ignored). -/
theorem c2_amended_witness :
    procLine envC1 "/home/u".toList [] "frobnicate /x".toList
      = Except.ok ([Event.warnInvalidLine "frobnicate /x"], [])
    ∧ procLine envC1 "/home/u".toList [] "whitelist /tmp".toList
      = Except.ok ([], []) :=
  c2_amended_invalid_line_continues envC1 "/home/u".toList []
    "frobnicate /x".toList "whitelist /tmp".toList rfl rfl

/-- Environment whose caller has uid 1000 and where /etc/secret is a
root-owned directory: the read-write request is not permitted. -/
def envC3 : Env :=
  { glob := fun s => [s]
    fnmatch := fun _ _ => FnRes.noMatch
    realpath := fun s => RpResult.ok s
    stat := fun s => some { isDir := s == "/etc/secret", uid := 0, gid := 0, mode := 493 }
    isLink := fun _ => false
    forceDirMountOk := fun _ => false
    forceFileMountOk := fun _ => false
    uid := 1000 }

/-- Claim C3 counterexample: the claim says a read-write directive on a
path the non-root caller does not own terminates the run, but fs_rdwr
(fs.c:577-579) only prints a warning and returns.  With caller uid 1000
and root-owned /etc/secret the run completes without a fatal error,
mounts nothing for the read-write directive, and still processes the
next directive. -/
theorem c3_counterexample :
    fs_blacklist envC3 "/home/u".toList
      ["read-write /etc/secret".toList, "blacklist /tmp/q".toList]
    = Except.ok ([Event.attempt "/etc/secret",
                  Event.warnRdwrDenied "/etc/secret",
                  Event.attempt "/tmp/q",
                  Event.mountDenial Donor.file "/tmp/q",
                  Event.logBlacklist "/tmp/q"], []) := by rfl

/-- Claim C3 (amended): a non-root read-write directive on a path the
caller does not own is refused with a warning and performs no mutation,
and the run continues; joining a sandbox created by a different user is
fatal for a non-root caller. -/
theorem c3_amended_rdwr_warns_join_fatal
    (env : Env) (dir : String) (s : StatInfo)
    (hstat : env.stat dir = some s)
    (hroot : env.uid ≠ 0)
    (howner : s.uid ≠ env.uid) :
    fs_rdwr env dir = [Event.warnRdwrDenied dir]
    ∧ (∀ (uid : Nat) (t : TargetCtx) (g0 : JoinGlobals),
        uid ≠ 0 → uid ≠ t.sandboxUid → join uid t g0 = none) := by
  constructor
  · unfold fs_rdwr
    simp only [hstat]
    rw [if_pos ⟨hroot, howner⟩]
  · intro uid t g0 h1 h2
    unfold join
    rw [if_pos ⟨h1, h2⟩]

/-- Target context owned by uid 0, for the join permission check. -/
def targetC3 : TargetCtx :=
  { capBnd := none, seccompMode := none, hasCpuCfg := false, hasCgroupCfg := false,
    hasGroupsCfg := false, uidMap := none, sandboxUid := 0 }

/-- Witness for the amended C3: uid 1000 is refused read-write on
root-owned /etc/secret with only a warning, and is refused outright when
joining uid 0's sandbox. -/
theorem c3_amended_witness :
    fs_rdwr envC3 "/etc/secret" = [Event.warnRdwrDenied "/etc/secret"]
    ∧ join 1000 targetC3 JoinGlobals.init = none :=
  ⟨(c3_amended_rdwr_warns_join_fatal envC3 "/etc/secret"
      { isDir := true, uid := 0, gid := 0, mode := 493 } rfl
      (by decide) (by decide)).1,
   (c3_amended_rdwr_warns_join_fatal envC3 "/etc/secret"
      { isDir := true, uid := 0, gid := 0, mode := 493 } rfl
      (by decide) (by decide)).2 1000 targetC3 JoinGlobals.init
      (by decide) (by decide)⟩

/-- Claim C4 counterexample: the claim says the join parent exits with
the child's exit status, but the parent discards the status
(waitpid(child, NULL, 0), join.c:399) and calls exit(0) (join.c:403).
With a child that exited with status 7 the parent still exits 0. -/
theorem c4_counterexample :
    (join_parent_epilogue 7).2 = 0 ∧ (join_parent_epilogue 7).2 ≠ 7 := by decide

/-- Claim C4 (amended): after forking, the join parent waits for the
child, flushes buffered logging, and exits with status 0 regardless of
the child's exit status; its SIGTERM handler flushes buffered logging
and exits with the signal number. -/
theorem c4_amended_parent_exit (s sig : Nat) :
    join_parent_epilogue s = ([ParentStep.waitChild, ParentStep.flushLog], 0)
    ∧ join_signal_handler sig = ([ParentStep.flushLog], sig) :=
  ⟨rfl, rfl⟩

/-- Claim C5: fs_chroot re-arms the staging tmpfs flag after its chroot
(fs.c:1241 calls fs_build_remount_mnt_dir, which clears tmpfs_mounted and
mounts a fresh tmpfs), but fs_overlayfs mounts the staging tmpfs only
before its chroot (fs.c:881) and never clears the flag after chroot
(fs.c:1069), so the next bootstrap call mounts nothing. -/
theorem c5_overlay_flag_not_rearmed :
    (fs_overlayfs_tmpfs false).1 = true
    ∧ (fs_build_mnt_dir (fs_overlayfs_tmpfs false).1).2 = []
    ∧ (fs_overlayfs_tmpfs false).2
        = [Event.mountStagingTmpfs, Event.chrootEv (RUN_MNT_DIR ++ "/oroot")]
    ∧ (fs_chroot_tmpfs "/newroot" true).1 = true
    ∧ (fs_chroot_tmpfs "/newroot" true).2
        = [Event.chrootEv "/newroot", Event.mountStagingTmpfs] :=
  ⟨rfl, rfl, rfl, rfl, rfl⟩

/-- Claim C6: for a blacklist-family denial whose target resolves and
exists (and is outside the /bin,/usr/bin symlinked-directory exemption),
the denial mounts the donor selected by `donorOfDir` applied to the stat
snapshot's directory bit — the same function of the type alone for both
directive forms and any directive text — followed by the log entry. -/
theorem c6_donor_by_type (env : Env) (op : OPERATION) (filename fname : String) (s : StatInfo)
    (hop : op = OPERATION.BLACKLIST_FILE ∨ op = OPERATION.BLACKLIST_NOLOG)
    (hrp : env.realpath filename = RpResult.ok fname)
    (hst : env.stat fname = some s)
    (hex : ¬ ((fname = "/bin" ∨ fname = "/usr/bin") ∧ env.isLink filename = true ∧ s.isDir = true)) :
    disable_file env op filename
      = [Event.mountDenial (donorOfDir s.isDir) fname, denialLog op fname] := by
  unfold disable_file
  rcases hop with rfl | rfl <;> simp only [hrp, hst] <;> rw [if_neg hex]

/-- Witness for C6: a regular file selects the file donor. -/
theorem c6_donor_by_type_witness :
    disable_file envC1 OPERATION.BLACKLIST_FILE "/tmp/f"
      = [Event.mountDenial (donorOfDir false) "/tmp/f",
         denialLog OPERATION.BLACKLIST_FILE "/tmp/f"] :=
  c6_donor_by_type envC1 OPERATION.BLACKLIST_FILE "/tmp/f" "/tmp/f"
    { isDir := false, uid := 0, gid := 0, mode := 420 }
    (Or.inl rfl) rfl rfl (by decide)

/-- Claim C7: a tmpfs directive on a resolved directory mounts a fresh
tmpfs, restores the snapshot owner, and logs; the resulting mountpoint
carries the pre-replacement owner uid/gid and empty content.  On a
non-directory it is refused with a warning only. -/
theorem c7_tmpfs_owner_restored
    (env : Env) (filename fname : String) (s : StatInfo)
    (fs0 : String → DirNode)
    (hrp : env.realpath filename = RpResult.ok fname)
    (hst : env.stat fname = some s)
    (huid : (fs0 fname).uid = s.uid)
    (hgid : (fs0 fname).gid = s.gid) :
    (s.isDir = true →
      disable_file env OPERATION.MOUNT_TMPFS filename
        = [Event.tmpfsMount fname, Event.chownEv fname s.uid s.gid, Event.logTmpfs fname]
      ∧ applyEvents fs0 (disable_file env OPERATION.MOUNT_TMPFS filename) fname
        = { uid := (fs0 fname).uid, gid := (fs0 fname).gid, entries := [] })
    ∧ (s.isDir = false →
      disable_file env OPERATION.MOUNT_TMPFS filename = [Event.warnTmpfsNotDir fname]) := by
  constructor
  · intro hdir
    have hdf : disable_file env OPERATION.MOUNT_TMPFS filename
        = [Event.tmpfsMount fname, Event.chownEv fname s.uid s.gid, Event.logTmpfs fname] := by
      unfold disable_file
      simp only [hrp, hst, hdir, if_true]
    refine ⟨hdf, ?_⟩
    rw [hdf]
    simp [applyEvents, applyEvent, huid, hgid]
  · intro hndir
    unfold disable_file
    simp only [hrp, hst, hndir]
    rw [if_neg (by decide)]

/-- Environment where /srv/data is a directory owned by uid/gid 33. -/
def envC7 : Env :=
  { glob := fun s => [s]
    fnmatch := fun _ _ => FnRes.noMatch
    realpath := fun s => RpResult.ok s
    stat := fun s =>
      if s = "/srv/data" then some { isDir := true, uid := 33, gid := 33, mode := 493 }
      else some { isDir := false, uid := 0, gid := 0, mode := 420 }
    isLink := fun _ => false
    forceDirMountOk := fun _ => false
    forceFileMountOk := fun _ => false
    uid := 0 }

/-- A populated /srv/data owned by uid/gid 33 before the tmpfs. -/
def fs0C7 : String → DirNode :=
  fun _ => { uid := 33, gid := 33, entries := ["a", "b"] }

/-- Witness for C7: tmpfs over the directory /srv/data leaves an empty
mountpoint owned by the original uid/gid 33. -/
theorem c7_tmpfs_owner_restored_witness :
    disable_file envC7 OPERATION.MOUNT_TMPFS "/srv/data"
      = [Event.tmpfsMount "/srv/data", Event.chownEv "/srv/data" 33 33,
         Event.logTmpfs "/srv/data"]
    ∧ applyEvents fs0C7 (disable_file envC7 OPERATION.MOUNT_TMPFS "/srv/data") "/srv/data"
      = { uid := 33, gid := 33, entries := [] } :=
  (c7_tmpfs_owner_restored envC7 "/srv/data" "/srv/data"
    { isDir := true, uid := 33, gid := 33, mode := 493 } fs0C7
    rfl rfl rfl rfl).1 rfl

/-- Claim C8: the overlay composer's kernel-release dispatch.  Release
"3.18.0" selects the modern overlay driver with a workdir; "3.10.0"
selects the legacy driver (lowerdir+upperdir only) and rejects a
keep/reuse request with a fatal error before mounting; any parsed major
version below 3 is fatal. -/
theorem c8_kernel_version_dispatch (keep : Bool) (od ow : String) :
    fs_overlayfs_driver "3.18.0" keep od ow
      = OverlayOutcome.mounted OverlayDriver.overlayModern
          { lowerdir := "/", upperdir := od, workdir := some ow }
    ∧ fs_overlayfs_driver "3.10.0" false od ow
      = OverlayOutcome.mounted OverlayDriver.overlayfsLegacy
          { lowerdir := "/", upperdir := od, workdir := none }
    ∧ fs_overlayfs_driver "3.10.0" true od ow = OverlayOutcome.fatalKeepOldKernel
    ∧ (∀ (rel : String) (maj mino : Nat), parseRelease rel = some (maj, mino) →
        maj < 3 → fs_overlayfs_driver rel keep od ow = OverlayOutcome.fatalKernelTooOld) := by
  refine ⟨by rfl, by rfl, by rfl, ?_⟩
  intro rel maj mino hparse hlt
  unfold fs_overlayfs_driver
  simp only [hparse]
  rw [if_pos hlt]

/-- Witness for C8 on kernels 3.18.0 (modern), 3.10.0 with keep (fatal)
and 2.6.32 (too old). -/
theorem c8_kernel_version_dispatch_witness :
    fs_overlayfs_driver "3.18.0" true "/od" "/ow"
      = OverlayOutcome.mounted OverlayDriver.overlayModern
          { lowerdir := "/", upperdir := "/od", workdir := some "/ow" }
    ∧ fs_overlayfs_driver "3.10.0" true "/od" "/ow" = OverlayOutcome.fatalKeepOldKernel
    ∧ fs_overlayfs_driver "2.6.32" true "/od" "/ow" = OverlayOutcome.fatalKernelTooOld :=
  ⟨(c8_kernel_version_dispatch true "/od" "/ow").1,
   (c8_kernel_version_dispatch true "/od" "/ow").2.2.1,
   (c8_kernel_version_dispatch true "/od" "/ow").2.2.2 "2.6.32" 2 6 (by rfl) (by decide)⟩

/-- Claim C9: a blacklist-family denial whose target does not exist —
realpath fails with an errno other than EACCES, or the canonical path
fails stat — is a complete no-op: no mount event, no log event, and no
fatal error (disable_file returns and the engine continues). -/
theorem c9_absent_target_noop (env : Env) (op : OPERATION) (filename : String)
    (hop : op = OPERATION.BLACKLIST_FILE ∨ op = OPERATION.BLACKLIST_NOLOG)
    (habs : env.realpath filename = RpResult.otherErr
            ∨ ∃ fname, env.realpath filename = RpResult.ok fname ∧ env.stat fname = none) :
    disable_file env op filename = [] := by
  rcases habs with h | ⟨fname, h1, h2⟩
  · unfold disable_file
    simp only [h]
  · unfold disable_file
    simp only [h1, h2]

/-- Environment where /gone fails realpath with ENOENT and /gone2
resolves but fails stat. -/
def envC9 : Env :=
  { glob := fun s => [s]
    fnmatch := fun _ _ => FnRes.noMatch
    realpath := fun s => if s = "/gone" then RpResult.otherErr else RpResult.ok s
    stat := fun s => if s = "/gone2" then none
      else some { isDir := false, uid := 0, gid := 0, mode := 420 }
    isLink := fun _ => false
    forceDirMountOk := fun _ => false
    forceFileMountOk := fun _ => false
    uid := 0 }

/-- Witness for C9 on both absent-target shapes. -/
theorem c9_absent_target_noop_witness :
    disable_file envC9 OPERATION.BLACKLIST_FILE "/gone" = []
    ∧ disable_file envC9 OPERATION.BLACKLIST_NOLOG "/gone2" = [] :=
  ⟨c9_absent_target_noop envC9 OPERATION.BLACKLIST_FILE "/gone"
      (Or.inl rfl) (Or.inl rfl),
   c9_absent_target_noop envC9 OPERATION.BLACKLIST_NOLOG "/gone2"
      (Or.inr rfl) (Or.inr ⟨"/gone2", rfl, rfl⟩)⟩

/-- Claim C10: a join performed by uid 0 extracts nothing from the
target (the extraction phase is skipped, join.c:226-232, leaving the
zero-initialised globals unchanged), never calls set_cgroup, and the
forked child applies no cpu-affinity, capability, protocol, seccomp,
user-namespace or group-drop restriction — only the plain privilege drop
with the nogroups flag clear. -/
theorem c10_root_join_skips_context (t : TargetCtx) :
    join 0 t JoinGlobals.init
      = some { globals := JoinGlobals.init, setCgroup := false,
               childRestrictions := [Restriction.dropPrivs false], parentExit := 0 } := by
  rfl
